import Mathlib

/-!
Shallow embedding of the BOMBERMAN repository (server and client of a
Bomberman-like networked game) and proofs about it.

The C++ containers are modelled explicitly:

* std::map with an integral key (PlayerId.value, BombId.value, client_id_t)
  becomes a key-sorted association list List (Nat × V); mapSet models
  insert-or-assign, mapIndex models operator[] (which default-inserts a
  value-initialized entry when the key is absent), mapErase models erase.
* std::set<Position> and std::set of ids become sorted duplicate-free lists
  built by insPos / insNat (set insert keeps an existing equal element).
* uint8/uint16/uint32 quantities are Nat; the arithmetic the sources perform
  on them (indices, timers, scores, bomb ids) stays far below the type
  maxima in every reachable state, so no wrap-around modelling is needed;
  the signed int arithmetic of move targets and explosion arms is Int.
-/

/-- A cell of the board: struct Position with uint16 coordinates. -/
structure Pos where
  x : Nat
  y : Nat
deriving DecidableEq

/-- Position ordering from operator<=>: lexicographic on (x, y). -/
def posLt (a b : Pos) : Bool :=
  decide (a.x < b.x) || (a.x == b.x && decide (a.y < b.y))

/-- std::set<Position>::insert on the sorted-list model. -/
def insPos (a : Pos) : List Pos → List Pos
  | [] => [a]
  | b :: bs =>
    if posLt a b then a :: b :: bs
    else if posLt b a then b :: insPos a bs
    else b :: bs

/-- std::set insert for id sets (PlayerId, BombId), ordered by value. -/
def insNat (a : Nat) : List Nat → List Nat
  | [] => [a]
  | b :: bs =>
    if a < b then a :: b :: bs
    else if b < a then b :: insNat a bs
    else b :: bs

/-- std::set<Position>::erase. -/
def setErasePos (a : Pos) (l : List Pos) : List Pos :=
  l.filter (fun b => b ≠ a)

/-- std::map lookup (find) on the association-list model. -/
def mapFind? (k : Nat) : List (Nat × α) → Option α
  | [] => none
  | e :: rest => if e.1 = k then some e.2 else mapFind? k rest

/-- std::map insert-or-assign, keeping the list key-sorted. -/
def mapSet (k : Nat) (v : α) : List (Nat × α) → List (Nat × α)
  | [] => [(k, v)]
  | e :: rest =>
    if k < e.1 then (k, v) :: e :: rest
    else if e.1 < k then e :: mapSet k v rest
    else (k, v) :: rest

/-- std::map erase by key. -/
def mapErase (k : Nat) (m : List (Nat × α)) : List (Nat × α) :=
  m.filter (fun e => e.1 ≠ k)

/-- std::map contains. -/
def mapContains (k : Nat) (m : List (Nat × α)) : Bool :=
  (mapFind? k m).isSome

/-- C++ std::map operator[]: yields the value at k, default-inserting v₀ when
k is absent; the possibly grown map is returned alongside the value. -/
def mapIndex (k : Nat) (v₀ : α) (m : List (Nat × α)) : α × List (Nat × α) :=
  match mapFind? k m with
  | some v => (v, m)
  | none => (v₀, mapSet k v₀ m)

/-- Keys strictly increase along the list (the invariant std::map maintains). -/
def sortedKeysB : List (Nat × α) → Bool
  | [] => true
  | [_] => true
  | a :: b :: rest => decide (a.1 < b.1) && sortedKeysB (b :: rest)

/-- Sum of the values of a score table. -/
def sumValues (m : List (Nat × Nat)) : Nat :=
  (m.map (fun e => e.2)).sum

/-- struct Player of the protocol. -/
structure Player where
  name : String
  address : String
deriving DecidableEq

/-- struct Bomb of the protocol. -/
structure Bomb where
  position : Pos
  timer : Nat
deriving DecidableEq

/-- enum Direction : UP, RIGHT, DOWN, LEFT. -/
inductive Direction where
  | up
  | right
  | down
  | left
deriving DecidableEq

/-- getDelta from src/server/types.h. -/
def getDelta : Direction → Int × Int
  | .up => (0, 1)
  | .down => (0, -1)
  | .left => (-1, 0)
  | .right => (1, 0)

/-- client_mess_t: the variant of messages a client sends. -/
inductive ClientMessage where
  | join (name : String)
  | placeBomb
  | placeBlock
  | move (direction : Direction)
deriving DecidableEq

/-- event_t: the variant of events inside a Turn. -/
inductive Event where
  | bombPlaced (id : Nat) (position : Pos)
  | bombExploded (id : Nat) (robots_destroyed : List Nat) (blocks_destroyed : List Pos)
  | playerMoved (id : Nat) (position : Pos)
  | blockPlaced (position : Pos)
deriving DecidableEq

/-- server_mess_t: the variant of messages the server broadcasts. -/
inductive ServerMessage where
  | hello (server_name : String)
      (players_count size_x size_y game_length explosion_radius bomb_timer : Nat)
  | acceptedPlayer (id : Nat) (player : Player)
  | gameStarted (players : List (Nat × Player))
  | turn (turn : Nat) (events : List Event)
  | gameEnded (scores : List (Nat × Nat))
deriving DecidableEq

/-- struct ServerParams of src/server/server.h. -/
structure ServerParams where
  bomb_timer : Nat
  players_count : Nat
  turn_duration : Nat
  explosion_radius : Nat
  initial_blocks : Nat
  game_length : Nat
  server_name : String
  port : Nat
  seed : Nat
  size_x : Nat
  size_y : Nat
deriving DecidableEq

/-- std::minstd_rand transition: next state = 48271 * state mod 2147483647;
operator() returns the new state. -/
def lcgNext (s : Nat) : Nat :=
  48271 * s % 2147483647

/-- std::minstd_rand seeding: state = seed mod 2147483647, replaced by 1 when
that remainder is 0. -/
def lcgSeed (seed : Nat) : Nat :=
  let s := seed % 2147483647
  if s = 0 then 1 else s

/-- GameManager::GameState. -/
structure GameState where
  bombs : List (Nat × Bomb) := []
  blocks : List Pos := []
  player_pos : List (Nat × Pos) := []
  scores : List (Nat × Nat) := []
  next_bomb_id : Nat := 0
deriving DecidableEq

/-- Boolean bounds test of the sources: 0 <= x < size_x and 0 <= y < size_y,
evaluated on int coordinates. -/
def inBoundsI (sx sy : Nat) (x y : Int) : Bool :=
  decide (0 ≤ x ∧ x < (sx : Int) ∧ 0 ≤ y ∧ y < (sy : Int))

/-- The bounds test of explosion arm step r in direction (dx, dy):
the coordinates are bomb.x + dx * r and bomb.y + dy * r, as ints. -/
def armInB (sx sy : Nat) (bomb : Pos) (dx dy : Int) (r : Nat) : Bool :=
  inBoundsI sx sy ((bomb.x : Int) + dx * (r : Int)) ((bomb.y : Int) + dy * (r : Int))

/-- The inner r-loop of GameManager::calcExplosion for one direction (dx, dy):
fuel counts the remaining values of r (initially explosion_radius + 1).
The source breaks only on a block; an out-of-bounds point is merely skipped
and the loop keeps stepping r. -/
def armLoop (sx sy : Nat) (blocks : List Pos) (bomb : Pos) (dx dy : Int) :
    Nat → Nat → List Pos → List Pos
  | _, 0, acc => acc
  | r, fuel + 1, acc =>
    if armInB sx sy bomb dx dy r then
      let pos : Pos := ⟨((bomb.x : Int) + dx * (r : Int)).toNat,
                        ((bomb.y : Int) + dy * (r : Int)).toNat⟩
      if pos ∈ blocks then insPos pos acc
      else armLoop sx sy blocks bomb dx dy (r + 1) fuel (insPos pos acc)
    else armLoop sx sy blocks bomb dx dy (r + 1) fuel acc

/-- GameManager::calcExplosion: the four directions dx = {1,-1,0,0},
dy = {0,0,1,-1} in source order, sharing the affected-position set. -/
def calcExplosion (p : ServerParams) (bomb_pos : Pos) (state : GameState) : List Pos :=
  let steps := p.explosion_radius + 1
  let a1 := armLoop p.size_x p.size_y state.blocks bomb_pos 1 0 0 steps []
  let a2 := armLoop p.size_x p.size_y state.blocks bomb_pos (-1) 0 0 steps a1
  let a3 := armLoop p.size_x p.size_y state.blocks bomb_pos 0 1 0 steps a2
  armLoop p.size_x p.size_y state.blocks bomb_pos 0 (-1) 0 steps a3

/-- Reference arm written from the specification's words (4.5): step r from 0
to explosion_radius; an out-of-bounds point ends the arm at once and is
excluded; an in-bounds point is included; a block ends the arm after being
included. -/
def refArm (sx sy : Nat) (blocks : List Pos) (bomb : Pos) (dx dy : Int) :
    Nat → Nat → List Pos → List Pos
  | _, 0, acc => acc
  | r, fuel + 1, acc =>
    if armInB sx sy bomb dx dy r then
      let pos : Pos := ⟨((bomb.x : Int) + dx * (r : Int)).toNat,
                        ((bomb.y : Int) + dy * (r : Int)).toNat⟩
      if pos ∈ blocks then insPos pos acc
      else refArm sx sy blocks bomb dx dy (r + 1) fuel (insPos pos acc)
    else acc

/-- Reference explosion cross written from the specification's words: the
four arms evaluated independently, union of their cells. -/
def refExplosion (p : ServerParams) (bomb_pos : Pos) (blocks : List Pos) : List Pos :=
  let steps := p.explosion_radius + 1
  let a1 := refArm p.size_x p.size_y blocks bomb_pos 1 0 0 steps []
  let a2 := refArm p.size_x p.size_y blocks bomb_pos (-1) 0 0 steps a1
  let a3 := refArm p.size_x p.size_y blocks bomb_pos 0 1 0 steps a2
  refArm p.size_x p.size_y blocks bomb_pos 0 (-1) 0 steps a3

/-- GameManager::calcDestroyedRobots: players whose position lies in the
affected set, iterated in ascending PlayerId order. -/
def calcDestroyedRobots (affected : List Pos) (state : GameState) : List Nat :=
  state.player_pos.foldl
    (fun acc e => if e.2 ∈ affected then insNat e.1 acc else acc) []

/-- GameManager::calcDestroyedBlocks: affected positions that hold a block. -/
def calcDestroyedBlocks (affected : List Pos) (state : GameState) : List Pos :=
  affected.foldl
    (fun acc pos => if pos ∈ state.blocks then insPos pos acc else acc) []

/-- GameManager::calcExplosionResult: the source reads state.bombs.at(id);
the callers only pass ids present in the map, modelled by the getD default. -/
def calcExplosionResult (p : ServerParams) (id : Nat) (state : GameState) :
    List Nat × List Pos :=
  let bomb := (mapFind? id state.bombs).getD ⟨⟨0, 0⟩, 0⟩
  let affected := calcExplosion p bomb.position state
  (calcDestroyedRobots affected state, calcDestroyedBlocks affected state)

/-- One iteration of the bomb loop of GameManager::updateBombs over the
accumulator (bombs map being mutated, robots_destroyed_total,
blocks_destroyed_total, bombs_exploded, events). A bomb with timer > 1 is
decremented in place; otherwise it explodes: its result sets are merged into
the totals and a BombExploded event is appended. -/
def updateBombsStep (p : ServerParams) (state : GameState)
    (acc : List (Nat × Bomb) × List Nat × List Pos × List Nat × List Event)
    (e : Nat × Bomb) :
    List (Nat × Bomb) × List Nat × List Pos × List Nat × List Event :=
  if e.2.timer > 1 then
    (mapSet e.1 ⟨e.2.position, e.2.timer - 1⟩ acc.1,
     acc.2.1, acc.2.2.1, acc.2.2.2.1, acc.2.2.2.2)
  else
    let rb := calcExplosionResult p e.1 state
    (acc.1,
     rb.1.foldl (fun a i => insNat i a) acc.2.1,
     rb.2.foldl (fun a q => insPos q a) acc.2.2.1,
     insNat e.1 acc.2.2.2.1,
     acc.2.2.2.2 ++ [Event.bombExploded e.1 rb.1 rb.2])

/-- GameManager::updateBombs: run the bomb loop, then for every destroyed
robot increment its score (operator[] with default 0) and erase its position,
then erase destroyed blocks, then erase exploded bombs. -/
def updateBombs (p : ServerParams) (state : GameState) : GameState × List Event :=
  let folded := state.bombs.foldl (updateBombsStep p state)
      (state.bombs, [], [], [], [])
  let rTot := folded.2.1
  let bTot := folded.2.2.1
  let exploded := folded.2.2.2.1
  let evs := folded.2.2.2.2
  let sp := rTot.foldl
      (fun (sp : List (Nat × Nat) × List (Nat × Pos)) i =>
        (mapSet i ((mapFind? i sp.1).getD 0 + 1) sp.1, mapErase i sp.2))
      (state.scores, state.player_pos)
  ({ state with
      bombs := exploded.foldl (fun bm i => mapErase i bm) folded.1,
      blocks := bTot.foldl (fun bl q => setErasePos q bl) state.blocks,
      player_pos := sp.2,
      scores := sp.1 },
   evs)

/-- GameManager::placeBomb: register the bomb under next_bomb_id with the
configured timer, emit BombPlaced, then advance next_bomb_id. -/
def placeBomb (p : ServerParams) (pos : Pos) (state : GameState)
    (events : List Event) : GameState × List Event :=
  ({ state with
      bombs := mapSet state.next_bomb_id ⟨pos, p.bomb_timer⟩ state.bombs,
      next_bomb_id := state.next_bomb_id + 1 },
   events ++ [Event.bombPlaced state.next_bomb_id pos])

/-- GameManager::placeBlock: insert and emit BlockPlaced unless a block is
already there. -/
def placeBlock (pos : Pos) (state : GameState) (events : List Event) :
    GameState × List Event :=
  if pos ∈ state.blocks then (state, events)
  else ({ state with blocks := insPos pos state.blocks },
        events ++ [Event.blockPlaced pos])

/-- GameManager::movePlayer: reject a target outside the board or on a block;
otherwise update the position and emit PlayerMoved. -/
def movePlayer (p : ServerParams) (p_id : Nat) (pos : Pos) (state : GameState)
    (events : List Event) : GameState × List Event :=
  if pos.x ≥ p.size_x ∨ pos.y ≥ p.size_y then (state, events)
  else if pos ∈ state.blocks then (state, events)
  else ({ state with player_pos := mapSet p_id pos state.player_pos },
        events ++ [Event.playerMoved p_id pos])

/-- GameManager::interpret for PlaceBomb: the player position is read with
operator[] (the caller has checked that the player is alive). -/
def interpretPlaceBomb (p : ServerParams) (p_id : Nat) (state : GameState)
    (events : List Event) : GameState × List Event :=
  let pr := mapIndex p_id ⟨0, 0⟩ state.player_pos
  placeBomb p pr.1 { state with player_pos := pr.2 } events

/-- GameManager::interpret for PlaceBlock: ignore the intent when a block
already stands at the player's position; the position is read twice with
operator[], as in the source. -/
def interpretPlaceBlock (p_id : Nat) (state : GameState) (events : List Event) :
    GameState × List Event :=
  let pr := mapIndex p_id ⟨0, 0⟩ state.player_pos
  let state1 := { state with player_pos := pr.2 }
  if pr.1 ∈ state1.blocks then (state1, events)
  else
    let pr2 := mapIndex p_id ⟨0, 0⟩ state1.player_pos
    placeBlock pr2.1 { state1 with player_pos := pr2.2 } events

/-- GameManager::interpret for Move: target = position + getDelta(direction)
as int arithmetic; inside the board the move is delegated to movePlayer,
otherwise it is ignored. -/
def interpretMove (p : ServerParams) (p_id : Nat) (m : Direction)
    (state : GameState) (events : List Event) : GameState × List Event :=
  let pr := mapIndex p_id ⟨0, 0⟩ state.player_pos
  let state1 := { state with player_pos := pr.2 }
  let d := getDelta m
  let new_x : Int := (pr.1.x : Int) + d.1
  let new_y : Int := (pr.1.y : Int) + d.2
  if 0 ≤ new_x ∧ new_x < (p.size_x : Int) ∧ 0 ≤ new_y ∧ new_y < (p.size_y : Int) then
    movePlayer p p_id ⟨new_x.toNat, new_y.toNat⟩ state1 events
  else (state1, events)

/-- GameManager::interpretAllClientMessages: snapshot messages are handled in
ascending PlayerId order, only for players still present in player_pos; a
Join is ignored. -/
def interpretAllClientMessages (p : ServerParams)
    (messages : List (Nat × ClientMessage)) (state : GameState)
    (events : List Event) : GameState × List Event :=
  messages.foldl
    (fun (acc : GameState × List Event) (m : Nat × ClientMessage) =>
      if mapContains m.1 acc.1.player_pos then
        match m.2 with
        | .join _ => acc
        | .placeBomb => interpretPlaceBomb p m.1 acc.1 acc.2
        | .placeBlock => interpretPlaceBlock m.1 acc.1 acc.2
        | .move d => interpretMove p m.1 d acc.1 acc.2
      else acc)
    (state, events)

/-- GameManager::resetScores: the source clears the whole scores map INSIDE
the per-player loop and then writes only the current player's zero, so each
iteration leaves a one-entry table. -/
def resetScores (players : List (Nat × Player)) (state : GameState) : GameState :=
  players.foldl (fun st e => { st with scores := mapSet e.1 0 [] }) state

/-- GameManager::placeMissingRobots: for each admitted player without a
robot, draw x then y from the generator and emit PlayerMoved. -/
def placeMissingRobots (p : ServerParams) (players : List (Nat × Player))
    (state : GameState) (rng : Nat) (events : List Event) :
    GameState × Nat × List Event :=
  players.foldl
    (fun (acc : GameState × Nat × List Event) (e : Nat × Player) =>
      if mapContains e.1 acc.1.player_pos then acc
      else
        let r1 := lcgNext acc.2.1
        let r2 := lcgNext r1
        let pos : Pos := ⟨r1 % p.size_x, r2 % p.size_y⟩
        ({ acc.1 with player_pos := mapSet e.1 pos acc.1.player_pos }, r2,
         acc.2.2 ++ [Event.playerMoved e.1 pos]))
    (state, rng, events)

/-- GameManager::placeInitialBlocks: exactly initial_blocks draws, each
inserted into the block set (duplicates absorbed) and each emitting a
BlockPlaced event. -/
def placeInitialBlocks (p : ServerParams) (state : GameState) (rng : Nat)
    (events : List Event) : GameState × Nat × List Event :=
  (List.range p.initial_blocks).foldl
    (fun (acc : GameState × Nat × List Event) _ =>
      let r1 := lcgNext acc.2.1
      let r2 := lcgNext r1
      let pos : Pos := ⟨r1 % p.size_x, r2 % p.size_y⟩
      ({ acc.1 with blocks := insPos pos acc.1.blocks }, r2,
       acc.2.2 ++ [Event.blockPlaced pos]))
    (state, rng, events)

/-- GameManager::initializeGame: reset scores, place all robots, place the
initial blocks; the emitted events form turn 0. -/
def initializeGame (p : ServerParams) (players : List (Nat × Player))
    (state : GameState) (rng : Nat) : GameState × Nat × List Event :=
  let st1 := resetScores players state
  let pm := placeMissingRobots p players st1 rng []
  placeInitialBlocks p pm.1 pm.2.1 pm.2.2

/-- Turns 1..game_length of GameManager::run: each turn collects the intent
snapshot (here a function from turn number to the snapshot), updates bombs,
interprets intents, respawns missing robots and closes the turn. Returns the
broadcast Turn messages, the final state and the final generator state. -/
def runTurns (p : ServerParams) (players : List (Nat × Player))
    (intents : Nat → List (Nat × ClientMessage)) :
    Nat → Nat → GameState → Nat → List ServerMessage →
    List ServerMessage × GameState × Nat
  | 0, _, state, rng, acc => (acc, state, rng)
  | fuel + 1, turn, state, rng, acc =>
    let ub := updateBombs p state
    let ic := interpretAllClientMessages p (intents turn) ub.1 ub.2
    let pm := placeMissingRobots p players ic.1 rng ic.2
    runTurns p players intents fuel (turn + 1) pm.1 pm.2.1
      (acc ++ [ServerMessage.turn turn pm.2.2])

/-- One lobby-to-GameEnded cycle of GameManager::run, for a fixed admitted
player roster: the generator is seeded from the seed parameter, turn 0 is
produced by initializeGame, then game_length turns run, then GameEnded
carries the final scores. -/
def runGame (p : ServerParams) (players : List (Nat × Player))
    (intents : Nat → List (Nat × ClientMessage)) : List ServerMessage :=
  let ig := initializeGame p players {} (lcgSeed p.seed)
  let rt := runTurns p players intents p.game_length 1 ig.1 ig.2.1
      [ServerMessage.turn 0 ig.2.2]
  rt.1 ++ [ServerMessage.gameEnded rt.2.1.scores]

/-- BlockingQueue of outbound server messages, as a client writer sees it:
its open flag and its FIFO content. -/
structure BQueue where
  is_open : Bool := true
  items : List ServerMessage := []
deriving DecidableEq

/-- The shared state of class Server (src/server/server.h). -/
structure Server where
  players : List (Nat × Player) := []
  player_ids : List (Nat × Nat) := []
  client_message_queues : List (Nat × BQueue) := []
  last_messages_from_clients : List (Nat × ClientMessage) := []
  next_client_id : Nat := 0
  is_lobby : Bool := true
  message_history : List ServerMessage := []
deriving DecidableEq

/-- The HELLO message built from the server parameters. -/
def helloMsg (p : ServerParams) : ServerMessage :=
  .hello p.server_name p.players_count p.size_x p.size_y p.game_length
    p.explosion_radius p.bomb_timer

/-- Server::initializeMessageHistory: the cleared history holds only HELLO. -/
def initializeMessageHistory (p : ServerParams) (s : Server) : Server :=
  { s with message_history := [helloMsg p] }

/-- A Server as constructed: empty tables and the initialized history. -/
def initServer (p : ServerParams) : Server :=
  initializeMessageHistory p {}

/-- Server::broadcast: append the message to the history and push it to every
open client queue. -/
def broadcast (m : ServerMessage) (s : Server) : Server :=
  { s with
      message_history := s.message_history ++ [m],
      client_message_queues := s.client_message_queues.map
        (fun cq => if cq.2.is_open then (cq.1, ⟨cq.2.is_open, cq.2.items ++ [m]⟩)
                   else cq) }

/-- Server::acceptClient: hand out the next client id. -/
def acceptClient (s : Server) : Nat × Server :=
  (s.next_client_id, { s with next_client_id := s.next_client_id + 1 })

/-- Server::createMessageQueue: the new client queue is seeded with the
current message history (the source asserts the id is fresh). -/
def createMessageQueue (client_id : Nat) (s : Server) : BQueue × Server :=
  let q : BQueue := ⟨true, s.message_history⟩
  (q, { s with client_message_queues := mapSet client_id q s.client_message_queues })

/-- Server::eraseClient: players.erase(player_ids[client_id]) —
operator[] default-inserts PlayerId 0 when the client was never admitted —
then erase the client's player-id entry, queue and pending intent. -/
def eraseClient (client_id : Nat) (s : Server) : Server :=
  let pr := mapIndex client_id 0 s.player_ids
  { s with
      players := mapErase pr.1 s.players,
      player_ids := mapErase client_id pr.2,
      client_message_queues := mapErase client_id s.client_message_queues,
      last_messages_from_clients := mapErase client_id s.last_messages_from_clients }

/-- Server::setLastMessage: record the client's latest intent. -/
def setLastMessage (client_id : Nat) (m : ClientMessage) (s : Server) : Server :=
  { s with last_messages_from_clients := mapSet client_id m s.last_messages_from_clients }

/-- Server::collectLastMessagesFromClients: for every recorded client intent,
messages[player_ids[client_id]] = message — the inner operator[]
default-inserts a PlayerId 0 mapping for a client that was never admitted —
then the intent table is cleared. -/
def collectLastMessagesFromClients (s : Server) :
    List (Nat × ClientMessage) × Server :=
  let mp := s.last_messages_from_clients.foldl
      (fun (acc : List (Nat × ClientMessage) × List (Nat × Nat))
           (cm : Nat × ClientMessage) =>
        let pr := mapIndex cm.1 0 acc.2
        (mapSet pr.1 cm.2 acc.1, pr.2))
      ([], s.player_ids)
  (mp.1, { s with player_ids := mp.2, last_messages_from_clients := [] })

/-- Server::tryAcceptPlayer: in the lobby, an unadmitted client is admitted
as the next sequential PlayerId and AcceptedPlayer is broadcast. -/
def tryAcceptPlayer (p : ServerParams) (client_id : Nat) (name address : String)
    (s : Server) : Server :=
  if s.is_lobby then
    if ¬ mapContains client_id s.player_ids = true
        ∧ s.player_ids.length < p.players_count then
      let player_id := s.player_ids.length
      let player : Player := ⟨name, address⟩
      broadcast (.acceptedPlayer player_id player)
        { s with
            player_ids := mapSet client_id player_id s.player_ids,
            players := mapSet player_id player s.players }
    else s
  else s

/-- Server::startGame: leave lobby mode, clear pending intents, REINITIALIZE
the message history (dropping the AcceptedPlayer frames) and broadcast
GameStarted. -/
def startGame (p : ServerParams) (s : Server) : Server :=
  let s1 := initializeMessageHistory p
      { s with is_lobby := false, last_messages_from_clients := [] }
  broadcast (.gameStarted s1.players) s1

/-- Server::closeTurn: broadcast one TURN frame. -/
def closeTurn (turn_id : Nat) (events : List Event) (s : Server) : Server :=
  broadcast (.turn turn_id events) s

/-- Server::startLobby: back to lobby mode with cleared roster and a fresh
history. -/
def startLobby (p : ServerParams) (s : Server) : Server :=
  initializeMessageHistory p
    { s with is_lobby := true, players := [], player_ids := [],
             last_messages_from_clients := [] }

/-- Server::endGame: broadcast GameEnded, then return to the lobby. -/
def endGame (p : ServerParams) (scores : List (Nat × Nat)) (s : Server) : Server :=
  startLobby p (broadcast (.gameEnded scores) s)

/-- Folding Server::closeTurn over a list of (turn id, events) frames. -/
def applyTurns (ts : List (Nat × List Event)) (s : Server) : Server :=
  ts.foldl (fun s t => closeTurn t.1 t.2 s) s

/-- struct ClientState (src/client/types.h), the fields the event engine
touches. -/
structure ClientState where
  robots_destroyed_in_turn : List Nat := []
  blocks_destroyed_in_turn : List Pos := []
  is_lobby : Bool := true
  player_name : String := ""
  server_name : String := ""
  players_count : Nat := 0
  size_x : Nat := 0
  size_y : Nat := 0
  game_length : Nat := 0
  explosion_radius : Nat := 0
  bomb_timer : Nat := 0
  turn : Nat := 0
  players : List (Nat × Player) := []
  player_positions : List (Nat × Pos) := []
  blocks : List Pos := []
  bombs : List (Nat × Bomb) := []
  explosions : List Pos := []
  scores : List (Nat × Nat) := []
deriving DecidableEq

/-- The inner r-loop of BombExploded::calcExplosion on the client, one
direction: identical loop text to the server's, but it inserts into the
accumulated explosions set of the client state. -/
def clientArmLoop (sx sy : Nat) (blocks : List Pos) (bomb : Pos) (dx dy : Int) :
    Nat → Nat → List Pos → List Pos
  | _, 0, acc => acc
  | r, fuel + 1, acc =>
    if armInB sx sy bomb dx dy r then
      let pos : Pos := ⟨((bomb.x : Int) + dx * (r : Int)).toNat,
                        ((bomb.y : Int) + dy * (r : Int)).toNat⟩
      if pos ∈ blocks then insPos pos acc
      else clientArmLoop sx sy blocks bomb dx dy (r + 1) fuel (insPos pos acc)
    else clientArmLoop sx sy blocks bomb dx dy (r + 1) fuel acc

/-- The four directions of BombExploded::calcExplosion on the client, in
source order, threading c.explosions. -/
def clientCalcExplosion (sx sy radius : Nat) (blocks : List Pos)
    (bomb_pos : Pos) (explosions : List Pos) : List Pos :=
  let steps := radius + 1
  let a1 := clientArmLoop sx sy blocks bomb_pos 1 0 0 steps explosions
  let a2 := clientArmLoop sx sy blocks bomb_pos (-1) 0 0 steps a1
  let a3 := clientArmLoop sx sy blocks bomb_pos 0 1 0 steps a2
  clientArmLoop sx sy blocks bomb_pos 0 (-1) 0 steps a3

/-- BombExploded::calcExplosion: the bomb position is read with
c.bombs[id] — operator[] default-inserts a value-initialized Bomb (position
(0,0), timer 0) when the id is unknown — and the cross is added to
c.explosions. -/
def bombExplodedCalcExplosion (id : Nat) (c : ClientState) : ClientState :=
  let br := mapIndex id ⟨⟨0, 0⟩, 0⟩ c.bombs
  { c with
      bombs := br.2,
      explosions := clientCalcExplosion c.size_x c.size_y c.explosion_radius
        c.blocks br.1.position c.explosions }

/-- BombExploded::apply: compute the explosion, record destroyed blocks and
robots (erasing robot positions), then erase the bomb. -/
def bombExplodedApply (id : Nat) (robots_destroyed : List Nat)
    (blocks_destroyed : List Pos) (c : ClientState) : ClientState :=
  let c1 := bombExplodedCalcExplosion id c
  let c2 := blocks_destroyed.foldl
      (fun c q => { c with blocks_destroyed_in_turn := insPos q c.blocks_destroyed_in_turn })
      c1
  let c3 := robots_destroyed.foldl
      (fun c q =>
        { c with
            robots_destroyed_in_turn := insNat q c.robots_destroyed_in_turn,
            player_positions := mapErase q c.player_positions })
      c2
  { c3 with bombs := mapErase id c3.bombs }

/-- Number of PlayerId entries across the robots_destroyed lists of the
BombExploded events of an event list. -/
def countRobotEntries (evs : List Event) : Nat :=
  evs.foldl
    (fun n e =>
      match e with
      | .bombExploded _ rd _ => n + rd.length
      | _ => n)
    0

/-- The set (sorted duplicate-free list) of PlayerIds across the
robots_destroyed lists of the BombExploded events of an event list. -/
def destroyedInEvents (evs : List Event) (acc : List Nat) : List Nat :=
  evs.foldl
    (fun a e =>
      match e with
      | .bombExploded _ rd _ => rd.foldl (fun a2 i => insNat i a2) a
      | _ => a)
    acc

/-! Concrete inputs used by counterexamples and witnesses. -/

/-- A small configuration: 6 by 6 board, explosion radius 3. -/
def pC6 : ServerParams :=
  { bomb_timer := 2, players_count := 1, turn_duration := 0,
    explosion_radius := 3, initial_blocks := 0, game_length := 3,
    server_name := "s", port := 0, seed := 0, size_x := 6, size_y := 6 }

/-- A game state with one block two cells east of position (2, 2). -/
def stC6 : GameState := { blocks := [⟨4, 2⟩] }

/-- Board and state for the C8 witness: a 3 by 3 board with player 0 at
(1, 1) and no blocks. -/
def pC8 : ServerParams :=
  { bomb_timer := 2, players_count := 1, turn_duration := 0,
    explosion_radius := 1, initial_blocks := 0, game_length := 3,
    server_name := "s", port := 0, seed := 0, size_x := 3, size_y := 3 }

def stC8 : GameState := { player_pos := [(0, ⟨1, 1⟩)] }

/-- Configuration for the C4 counterexample: a 3 by 1 board, radius 1. -/
def pC4 : ServerParams :=
  { bomb_timer := 3, players_count := 1, turn_duration := 0,
    explosion_radius := 1, initial_blocks := 0, game_length := 5,
    server_name := "s", port := 0, seed := 0, size_x := 3, size_y := 1 }

/-- Two bombs about to explode at (0,0) and (1,0), player 0's robot at
(0,0): the robot is inside both blast crosses. -/
def stC4 : GameState :=
  { bombs := [(0, ⟨⟨0, 0⟩, 1⟩), (1, ⟨⟨1, 0⟩, 1⟩)],
    blocks := [], player_pos := [(0, ⟨0, 0⟩)], scores := [(0, 0)],
    next_bomb_id := 2 }

/-- Parameters of the C1 counterexample session. -/
def pC1 : ServerParams :=
  { bomb_timer := 2, players_count := 1, turn_duration := 0,
    explosion_radius := 1, initial_blocks := 0, game_length := 3,
    server_name := "srv", port := 0, seed := 42, size_x := 4, size_y := 4 }

/-- A session: client 0 connects, is admitted (AcceptedPlayer broadcast),
the game starts and one Turn is broadcast. -/
def serverC1 : Server :=
  let s1 := (acceptClient (initServer pC1)).2
  let s2 := (createMessageQueue 0 s1).2
  let s3 := tryAcceptPlayer pC1 0 "alice" "addr1" s2
  let s4 := startGame pC1 s3
  closeTurn 1 [] s4

/-- Client 0 is admitted as player 0 (and sent Move); client 5 was never
admitted and sent PlaceBomb. -/
def serverC3 : Server :=
  { player_ids := [(0, 0)], players := [(0, ⟨"a", "addr"⟩)],
    last_messages_from_clients := [(0, .move .up), (5, .placeBomb)] }

/-- Player 0 was admitted through client 7; client 3 never joined. -/
def serverC5 : Server :=
  { players := [(0, ⟨"a", "addr"⟩)], player_ids := [(7, 0)] }

/-- Parameters for the C9 witness: seed 42 on a 4 by 4 board. -/
def pC9 : ServerParams :=
  { bomb_timer := 2, players_count := 1, turn_duration := 0,
    explosion_radius := 1, initial_blocks := 2, game_length := 3,
    server_name := "s", port := 0, seed := 42, size_x := 4, size_y := 4 }

/-- Client state for the C10 witness: a 2 by 2 board, radius 1, no bombs,
robot 3 standing at (0, 0). -/
def cC10 : ClientState :=
  { size_x := 2, size_y := 2, explosion_radius := 1,
    player_positions := [(3, ⟨0, 0⟩)], bombs := [] }

/-! Container lemmas. -/

theorem posLt_eq_of_not_lt {a b : Pos} (h1 : posLt a b = false)
    (h2 : posLt b a = false) : a = b := by
  cases a with
  | mk ax ay =>
    cases b with
    | mk bx bz =>
      simp only [posLt, Bool.or_eq_false_iff, Bool.and_eq_false_iff,
        decide_eq_false_iff_not, beq_eq_false_iff_ne, ne_eq] at h1 h2
      simp only [Pos.mk.injEq]
      omega

theorem mem_insPos (q a : Pos) (l : List Pos) :
    q ∈ insPos a l ↔ q = a ∨ q ∈ l := by
  induction l with
  | nil => simp [insPos]
  | cons b bs ih =>
    cases h1 : posLt a b with
    | true =>
      simp [insPos, h1]
    | false =>
      cases h2 : posLt b a with
      | true =>
        simp only [insPos, h1, h2, if_true, Bool.false_eq_true, if_false,
          List.mem_cons, ih]
        tauto
      | false =>
        have hab : a = b := posLt_eq_of_not_lt h1 h2
        subst hab
        simp [insPos, h1]

theorem mem_insNat (q a : Nat) (l : List Nat) :
    q ∈ insNat a l ↔ q = a ∨ q ∈ l := by
  induction l with
  | nil => simp [insNat]
  | cons b bs ih =>
    by_cases h1 : a < b
    · simp [insNat, h1]
    · by_cases h2 : b < a
      · simp only [insNat, h1, h2, if_false, if_true, List.mem_cons, ih]
        tauto
      · have hab : a = b := by omega
        subst hab
        simp [insNat, h1, h2]

theorem mapFind?_mapErase (q k : Nat) (m : List (Nat × α)) :
    mapFind? q (mapErase k m) = if q = k then none else mapFind? q m := by
  induction m with
  | nil => simp [mapErase, mapFind?]
  | cons e rest ih =>
    by_cases he : e.1 = k <;> by_cases hq : q = k <;> by_cases hqe : e.1 = q <;>
      simp_all [mapErase, mapFind?, List.filter_cons]

theorem mapContains_mapErase_self (k : Nat) (m : List (Nat × α)) :
    mapContains k (mapErase k m) = false := by
  simp [mapContains, mapFind?_mapErase]

theorem mapContains_mapErase_of_false (q k : Nat) (m : List (Nat × α))
    (h : mapContains q m = false) :
    mapContains q (mapErase k m) = false := by
  by_cases hqk : q = k
  · simp [mapContains, mapFind?_mapErase, hqk]
  · simpa [mapContains, mapFind?_mapErase, hqk] using h

theorem mem_mapSet (e : Nat × α) (k : Nat) (v : α) (m : List (Nat × α)) :
    e ∈ mapSet k v m → e = (k, v) ∨ e ∈ m := by
  induction m with
  | nil => simp [mapSet]
  | cons b rest ih =>
    by_cases h1 : k < b.1
    · simp [mapSet, h1]
    · by_cases h2 : b.1 < k
      · simp only [mapSet, h1, h2, if_false, if_true, List.mem_cons]
        intro h
        rcases h with h | h
        · tauto
        · rcases ih h with h | h <;> tauto
      · simp [mapSet, h1, h2]
        tauto

theorem mapFind?_mapIndex_some (k : Nat) (d v : α) (m : List (Nat × α))
    (h : mapFind? k m = some v) : mapIndex k d m = (v, m) := by
  simp [mapIndex, h]

theorem mapFind?_mapIndex_none (k : Nat) (d : α) (m : List (Nat × α))
    (h : mapFind? k m = none) : mapIndex k d m = (d, mapSet k d m) := by
  simp [mapIndex, h]

/-! Sorted-key and score-sum lemmas. -/

theorem sortedKeysB_eq_true_iff (m : List (Nat × α)) :
    sortedKeysB m = true ↔ List.Pairwise (fun a b => a.1 < b.1) m := by
  induction m with
  | nil => simp [sortedKeysB]
  | cons a l ih =>
    cases l with
    | nil => simp [sortedKeysB]
    | cons b l2 =>
      rw [List.pairwise_cons]
      constructor
      · intro h
        simp only [sortedKeysB, Bool.and_eq_true, decide_eq_true_eq] at h
        have hp := ih.mp h.2
        rw [List.pairwise_cons] at hp
        refine ⟨?_, ih.mp h.2⟩
        intro e he
        rcases List.mem_cons.mp he with he | he
        · subst he; exact h.1
        · exact lt_trans h.1 (hp.1 e he)
      · intro h
        simp only [sortedKeysB, Bool.and_eq_true, decide_eq_true_eq]
        exact ⟨h.1 b (List.mem_cons_self b l2), ih.mpr h.2⟩

theorem pairwise_mapSet (k : Nat) (v : α) (m : List (Nat × α))
    (h : List.Pairwise (fun a b => a.1 < b.1) m) :
    List.Pairwise (fun a b => a.1 < b.1) (mapSet k v m) := by
  induction m with
  | nil => simp [mapSet]
  | cons a rest ih =>
    rw [List.pairwise_cons] at h
    by_cases h1 : k < a.1
    · simp only [mapSet, h1, if_true]
      rw [List.pairwise_cons]
      refine ⟨?_, List.pairwise_cons.mpr h⟩
      intro e he
      rcases List.mem_cons.mp he with he | he
      · subst he; exact h1
      · exact lt_trans h1 (h.1 e he)
    · by_cases h2 : a.1 < k
      · simp only [mapSet, h1, h2, if_false, if_true]
        rw [List.pairwise_cons]
        refine ⟨?_, ih h.2⟩
        intro e he
        rcases mem_mapSet e k v rest he with he | he
        · subst he; exact h2
        · exact h.1 e he
      · have heq : a.1 = k := by omega
        simp only [mapSet, h1, h2, if_false]
        rw [List.pairwise_cons]
        refine ⟨?_, h.2⟩
        intro e he
        rw [← heq]
        exact h.1 e he

theorem mapFind?_eq_none_of_forall (k : Nat) (m : List (Nat × α))
    (h : ∀ e ∈ m, k < e.1) : mapFind? k m = none := by
  induction m with
  | nil => rfl
  | cons a rest ih =>
    have ha : ¬ a.1 = k := by
      have := h a (List.mem_cons_self a rest)
      omega
    simp only [mapFind?, ha, if_false]
    exact ih (fun e he => h e (List.mem_cons_of_mem a he))

theorem sumValues_cons (e : Nat × Nat) (m : List (Nat × Nat)) :
    sumValues (e :: m) = e.2 + sumValues m := by
  simp [sumValues]

theorem sumValues_mapSet_incr (k : Nat) (m : List (Nat × Nat))
    (h : List.Pairwise (fun a b => a.1 < b.1) m) :
    sumValues (mapSet k ((mapFind? k m).getD 0 + 1) m) = sumValues m + 1 := by
  induction m with
  | nil => simp [mapSet, mapFind?, sumValues]
  | cons a rest ih =>
    rw [List.pairwise_cons] at h
    by_cases h1 : k < a.1
    · have hf : mapFind? k (a :: rest) = none := by
        apply mapFind?_eq_none_of_forall
        intro e he
        rcases List.mem_cons.mp he with he | he
        · subst he; exact h1
        · exact lt_trans h1 (h.1 e he)
      rw [hf]
      simp only [mapSet, h1, if_true, Option.getD_none]
      rw [sumValues_cons, sumValues_cons]
      omega
    · by_cases h2 : a.1 < k
      · have hne : ¬ a.1 = k := by omega
        simp only [mapFind?, hne, if_false, mapSet, h1, h2, if_true]
        rw [sumValues_cons, sumValues_cons]
        rw [ih h.2]
        omega
      · have heq : a.1 = k := by omega
        simp [mapFind?, mapSet, heq, sumValues_cons]
        omega

theorem sumValues_foldl_incr (ids : List Nat) (m : List (Nat × Nat))
    (h : List.Pairwise (fun a b => a.1 < b.1) m) :
    sumValues (ids.foldl (fun sc i => mapSet i ((mapFind? i sc).getD 0 + 1) sc) m)
      = sumValues m + ids.length := by
  induction ids generalizing m with
  | nil => simp
  | cons i rest ih =>
    rw [List.foldl_cons, ih _ (pairwise_mapSet _ _ _ h), sumValues_mapSet_incr i m h]
    simp only [List.length_cons]
    omega

theorem foldl_scores_fst (ids : List Nat) (sc : List (Nat × Nat))
    (pp : List (Nat × Pos)) :
    (ids.foldl
        (fun (sp : List (Nat × Nat) × List (Nat × Pos)) i =>
          (mapSet i ((mapFind? i sp.1).getD 0 + 1) sp.1, mapErase i sp.2))
        (sc, pp)).1
      = ids.foldl (fun sc i => mapSet i ((mapFind? i sc).getD 0 + 1) sc) sc := by
  induction ids generalizing sc pp with
  | nil => rfl
  | cons i rest ih =>
    rw [List.foldl_cons, List.foldl_cons]
    exact ih _ _

theorem destroyedInEvents_append_exploded (evs : List Event) (id : Nat)
    (rd : List Nat) (bd : List Pos) (acc : List Nat) :
    destroyedInEvents (evs ++ [Event.bombExploded id rd bd]) acc
      = rd.foldl (fun a i => insNat i a) (destroyedInEvents evs acc) := by
  simp [destroyedInEvents, List.foldl_append]

theorem updateBombs_fold_rTot (p : ServerParams) (state : GameState)
    (l : List (Nat × Bomb)) :
    ∀ acc : List (Nat × Bomb) × List Nat × List Pos × List Nat × List Event,
      acc.2.1 = destroyedInEvents acc.2.2.2.2 [] →
      (l.foldl (updateBombsStep p state) acc).2.1
        = destroyedInEvents (l.foldl (updateBombsStep p state) acc).2.2.2.2 [] := by
  induction l with
  | nil =>
    intro acc h
    simpa using h
  | cons e rest ih =>
    intro acc h
    rw [List.foldl_cons]
    apply ih
    unfold updateBombsStep
    by_cases ht : e.2.timer > 1
    · simp [ht, h]
    · simp only [ht, if_false]
      rw [destroyedInEvents_append_exploded, ← h]

/-! Explosion-arm lemmas (claims C6 and C7). -/

theorem armLoop_stuck (sx sy : Nat) (blocks : List Pos) (bomb : Pos)
    (dx dy : Int) (fuel : Nat) :
    ∀ (r : Nat) (acc : List Pos),
      (∀ k : Nat, armInB sx sy bomb dx dy (r + k) = false) →
      armLoop sx sy blocks bomb dx dy r fuel acc = acc := by
  induction fuel with
  | zero =>
    intro r acc _
    rfl
  | succ n ih =>
    intro r acc h
    have h0 : armInB sx sy bomb dx dy r = false := by
      have := h 0
      simpa using this
    rw [armLoop, h0]
    simp only [Bool.false_eq_true, if_false]
    apply ih
    intro k
    have e : r + 1 + k = r + (k + 1) := by omega
    rw [e]
    exact h (k + 1)

theorem armLoop_eq_refArm (sx sy : Nat) (blocks : List Pos) (bomb : Pos)
    (dx dy : Int) (fuel : Nat)
    (mono : ∀ r : Nat, armInB sx sy bomb dx dy r = false →
      armInB sx sy bomb dx dy (r + 1) = false) :
    ∀ (r : Nat) (acc : List Pos),
      armLoop sx sy blocks bomb dx dy r fuel acc
        = refArm sx sy blocks bomb dx dy r fuel acc := by
  induction fuel with
  | zero =>
    intro r acc
    rfl
  | succ n ih =>
    intro r acc
    cases hb : armInB sx sy bomb dx dy r with
    | true =>
      rw [armLoop, refArm, hb]
      simp only [if_true]
      by_cases hbl : (⟨((bomb.x : Int) + dx * (r : Int)).toNat,
          ((bomb.y : Int) + dy * (r : Int)).toNat⟩ : Pos) ∈ blocks
      · simp only [hbl, if_true]
      · simp only [hbl, if_false]
        exact ih (r + 1) _
    | false =>
      rw [armLoop, refArm, hb]
      simp only [Bool.false_eq_true, if_false]
      apply armLoop_stuck
      intro k
      induction k with
      | zero =>
        have e : r + 1 + 0 = r + 1 := by omega
        rw [e]
        exact mono r hb
      | succ m ihm =>
        have e : r + 1 + (m + 1) = (r + 1 + m) + 1 := by omega
        rw [e]
        exact mono (r + 1 + m) ihm

theorem armInB_mono_east (sx sy : Nat) (bomb : Pos) (r : Nat)
    (h : armInB sx sy bomb 1 0 r = false) : armInB sx sy bomb 1 0 (r + 1) = false := by
  simp only [armInB, inBoundsI, decide_eq_false_iff_not, not_and, not_lt] at h ⊢
  push_cast at h ⊢
  omega

theorem armInB_mono_west (sx sy : Nat) (bomb : Pos) (hx : bomb.x < sx) (r : Nat)
    (h : armInB sx sy bomb (-1) 0 r = false) :
    armInB sx sy bomb (-1) 0 (r + 1) = false := by
  simp only [armInB, inBoundsI, decide_eq_false_iff_not, not_and, not_lt] at h ⊢
  push_cast at h ⊢
  omega

theorem armInB_mono_north (sx sy : Nat) (bomb : Pos) (r : Nat)
    (h : armInB sx sy bomb 0 1 r = false) : armInB sx sy bomb 0 1 (r + 1) = false := by
  simp only [armInB, inBoundsI, decide_eq_false_iff_not, not_and, not_lt] at h ⊢
  push_cast at h ⊢
  omega

theorem armInB_mono_south (sx sy : Nat) (bomb : Pos) (hy : bomb.y < sy) (r : Nat)
    (h : armInB sx sy bomb 0 (-1) r = false) :
    armInB sx sy bomb 0 (-1) (r + 1) = false := by
  simp only [armInB, inBoundsI, decide_eq_false_iff_not, not_and, not_lt] at h ⊢
  push_cast at h ⊢
  omega

theorem clientArmLoop_eq_armLoop (sx sy : Nat) (blocks : List Pos) (bomb : Pos)
    (dx dy : Int) (fuel : Nat) :
    ∀ (r : Nat) (acc : List Pos),
      clientArmLoop sx sy blocks bomb dx dy r fuel acc
        = armLoop sx sy blocks bomb dx dy r fuel acc := by
  induction fuel with
  | zero =>
    intro r acc
    rfl
  | succ n ih =>
    intro r acc
    rw [clientArmLoop, armLoop]
    cases hb : armInB sx sy bomb dx dy r with
    | true =>
      simp only [if_true]
      by_cases hbl : (⟨((bomb.x : Int) + dx * (r : Int)).toNat,
          ((bomb.y : Int) + dy * (r : Int)).toNat⟩ : Pos) ∈ blocks
      · simp only [hbl, if_true]
      · simp only [hbl, if_false]
        exact ih (r + 1) _
    | false =>
      simp only [Bool.false_eq_true, if_false]
      exact ih (r + 1) acc

theorem armLoop_mem_congr (sx sy : Nat) (blocks : List Pos) (bomb : Pos)
    (dx dy : Int) (fuel : Nat) :
    ∀ (r : Nat) (acc1 acc2 e : List Pos),
      (∀ q : Pos, q ∈ acc1 ↔ q ∈ e ∨ q ∈ acc2) →
      ∀ q : Pos,
        q ∈ armLoop sx sy blocks bomb dx dy r fuel acc1
          ↔ q ∈ e ∨ q ∈ armLoop sx sy blocks bomb dx dy r fuel acc2 := by
  induction fuel with
  | zero =>
    intro r acc1 acc2 e h q
    simpa [armLoop] using h q
  | succ n ih =>
    intro r acc1 acc2 e h q
    simp only [armLoop]
    cases hb : armInB sx sy bomb dx dy r with
    | true =>
      simp only [if_true]
      by_cases hbl : (⟨((bomb.x : Int) + dx * (r : Int)).toNat,
          ((bomb.y : Int) + dy * (r : Int)).toNat⟩ : Pos) ∈ blocks
      · simp only [hbl, if_true]
        have hq := h q
        simp only [mem_insPos]
        tauto
      · simp only [hbl, if_false]
        refine ih (r + 1) _ _ e ?_ q
        intro q2
        have hq := h q2
        simp only [mem_insPos]
        tauto
    | false =>
      simp only [Bool.false_eq_true, if_false]
      exact ih (r + 1) acc1 acc2 e h q

/-! Claim C6. -/

/-- C6: for every in-bounds bomb position, board dimensions, explosion radius
and block set, the affected set computed by GameManager::calcExplosion equals
the reference cross of the specification (each arm stepping r = 0 to
explosion_radius, stopped by the board edge, and stopped by a block after
including it; the bomb cell itself is the r = 0 step of every arm). -/
theorem calcExplosion_eq_refExplosion (p : ServerParams) (state : GameState)
    (bomb_pos : Pos) (hx : bomb_pos.x < p.size_x) (hy : bomb_pos.y < p.size_y) :
    calcExplosion p bomb_pos state = refExplosion p bomb_pos state.blocks := by
  simp only [calcExplosion, refExplosion]
  rw [armLoop_eq_refArm p.size_x p.size_y state.blocks bomb_pos 1 0 _
      (armInB_mono_east p.size_x p.size_y bomb_pos)]
  rw [armLoop_eq_refArm p.size_x p.size_y state.blocks bomb_pos (-1) 0 _
      (armInB_mono_west p.size_x p.size_y bomb_pos hx)]
  rw [armLoop_eq_refArm p.size_x p.size_y state.blocks bomb_pos 0 1 _
      (armInB_mono_north p.size_x p.size_y bomb_pos)]
  rw [armLoop_eq_refArm p.size_x p.size_y state.blocks bomb_pos 0 (-1) _
      (armInB_mono_south p.size_x p.size_y bomb_pos hy)]

/-- C6 witness: the equality evaluated on a concrete in-bounds bomb at
(2, 2) with a block at (4, 2). -/
theorem calcExplosion_eq_refExplosion_witness :
    calcExplosion pC6 ⟨2, 2⟩ stC6 = refExplosion pC6 ⟨2, 2⟩ stC6.blocks :=
  calcExplosion_eq_refExplosion pC6 stC6 ⟨2, 2⟩ (by decide) (by decide)

/-! Claim C7. -/

/-- C7: on identical inputs (bomb position, block set, board dimensions,
explosion radius), the set of cells the client's BombExploded::calcExplosion
adds to the explosions set is exactly the affected set of the server's
GameManager::calcExplosion: a cell is in the client's resulting explosions
set precisely when it was already there or the server's algorithm marks it. -/
theorem clientCalcExplosion_eq_calcExplosion (p : ServerParams)
    (state : GameState) (bomb_pos : Pos) (explosions : List Pos) (q : Pos) :
    q ∈ clientCalcExplosion p.size_x p.size_y p.explosion_radius state.blocks
          bomb_pos explosions
      ↔ q ∈ explosions ∨ q ∈ calcExplosion p bomb_pos state := by
  simp only [clientCalcExplosion, calcExplosion, clientArmLoop_eq_armLoop]
  apply armLoop_mem_congr
  intro q1
  apply armLoop_mem_congr
  intro q2
  apply armLoop_mem_congr
  intro q3
  apply armLoop_mem_congr
  intro q4
  simp

/-! Claim C8. -/

/-- C8: the delta table is Up (0,+1), Right (+1,0), Down (0,-1), Left (-1,0);
for a surviving player at pos with intent Move d, a target inside the board
and free of blocks updates the player position and emits exactly one
PlayerMoved, and any other target leaves the state unchanged with no event. -/
theorem interpretMove_spec (p : ServerParams) (state : GameState) (p_id : Nat)
    (d : Direction) (events : List Event) (pos : Pos)
    (hpos : mapFind? p_id state.player_pos = some pos) :
    getDelta Direction.up = (0, 1) ∧ getDelta Direction.right = (1, 0) ∧
    getDelta Direction.down = (0, -1) ∧ getDelta Direction.left = (-1, 0) ∧
    ((0 ≤ (pos.x : Int) + (getDelta d).1 ∧
      (pos.x : Int) + (getDelta d).1 < (p.size_x : Int) ∧
      0 ≤ (pos.y : Int) + (getDelta d).2 ∧
      (pos.y : Int) + (getDelta d).2 < (p.size_y : Int) ∧
      (⟨((pos.x : Int) + (getDelta d).1).toNat,
        ((pos.y : Int) + (getDelta d).2).toNat⟩ : Pos) ∉ state.blocks) →
      interpretMove p p_id d state events
        = ({ state with
              player_pos := mapSet p_id
                ⟨((pos.x : Int) + (getDelta d).1).toNat,
                 ((pos.y : Int) + (getDelta d).2).toNat⟩ state.player_pos },
           events ++ [Event.playerMoved p_id
              ⟨((pos.x : Int) + (getDelta d).1).toNat,
               ((pos.y : Int) + (getDelta d).2).toNat⟩])) ∧
    (¬ (0 ≤ (pos.x : Int) + (getDelta d).1 ∧
        (pos.x : Int) + (getDelta d).1 < (p.size_x : Int) ∧
        0 ≤ (pos.y : Int) + (getDelta d).2 ∧
        (pos.y : Int) + (getDelta d).2 < (p.size_y : Int) ∧
        (⟨((pos.x : Int) + (getDelta d).1).toNat,
          ((pos.y : Int) + (getDelta d).2).toNat⟩ : Pos) ∉ state.blocks) →
      interpretMove p p_id d state events = (state, events)) := by
  refine ⟨rfl, rfl, rfl, rfl, ?_, ?_⟩
  · intro hcond
    obtain ⟨h1, h2, h3, h4, h5⟩ := hcond
    simp only [interpretMove,
      mapFind?_mapIndex_some p_id ⟨0, 0⟩ pos state.player_pos hpos]
    rw [if_pos ⟨h1, h2, h3, h4⟩]
    simp only [movePlayer]
    rw [if_neg (by omega), if_neg h5]
  · intro hcond
    by_cases hb : 0 ≤ (pos.x : Int) + (getDelta d).1 ∧
        (pos.x : Int) + (getDelta d).1 < (p.size_x : Int) ∧
        0 ≤ (pos.y : Int) + (getDelta d).2 ∧
        (pos.y : Int) + (getDelta d).2 < (p.size_y : Int)
    · have h5 : (⟨((pos.x : Int) + (getDelta d).1).toNat,
          ((pos.y : Int) + (getDelta d).2).toNat⟩ : Pos) ∈ state.blocks := by
        by_contra h5
        exact hcond ⟨hb.1, hb.2.1, hb.2.2.1, hb.2.2.2, h5⟩
      simp only [interpretMove,
        mapFind?_mapIndex_some p_id ⟨0, 0⟩ pos state.player_pos hpos]
      rw [if_pos hb]
      simp only [movePlayer]
      rw [if_neg (by omega), if_pos h5]
    · simp only [interpretMove,
        mapFind?_mapIndex_some p_id ⟨0, 0⟩ pos state.player_pos hpos]
      rw [if_neg hb]

/-- C8 witness: Move Up from (1, 1) on the 3 by 3 board moves the robot to
(1, 2) (Up is +y) and emits one PlayerMoved. -/
theorem interpretMove_spec_witness :
    interpretMove pC8 0 Direction.up stC8 []
      = ({ stC8 with player_pos := mapSet 0 ⟨1, 2⟩ stC8.player_pos },
         [Event.playerMoved 0 ⟨1, 2⟩]) :=
  (interpretMove_spec pC8 stC8 0 Direction.up [] ⟨1, 1⟩ (by decide)).2.2.2.2.1
    (by decide)

/-! Claim C4. -/

/-- C4 counterexample: when two bombs destroy the same robot in one turn,
the robot appears in both BombExploded.robots_destroyed lists (2 entries)
while the sum of score increments of the turn is 1, so the claimed equality
fails. -/
theorem updateBombs_entries_cex :
    sumValues (updateBombs pC4 stC4).1.scores = sumValues stC4.scores + 1 ∧
    countRobotEntries (updateBombs pC4 stC4).2 = 2 ∧
    sumValues (updateBombs pC4 stC4).1.scores - sumValues stC4.scores
      ≠ countRobotEntries (updateBombs pC4 stC4).2 := by
  decide

/-- C4 amended: per turn, the sum of score increments applied by updateBombs
equals the number of DISTINCT PlayerIds across the turn's
BombExploded.robots_destroyed lists (the set union the source accumulates);
the scores table is assumed key-sorted, the invariant std::map maintains. -/
theorem updateBombs_scores_sum (p : ServerParams) (state : GameState)
    (h : sortedKeysB state.scores = true) :
    sumValues (updateBombs p state).1.scores
      = sumValues state.scores
        + (destroyedInEvents (updateBombs p state).2 []).length := by
  have hp : List.Pairwise (fun a b : Nat × Nat => a.1 < b.1) state.scores :=
    (sortedKeysB_eq_true_iff state.scores).mp h
  simp only [updateBombs]
  rw [foldl_scores_fst]
  rw [sumValues_foldl_incr _ _ hp]
  rw [updateBombs_fold_rTot p state state.bombs (state.bombs, [], [], [], [])
      (by rfl)]

/-- C4 witness: the amended equality evaluated on the two-overlapping-bombs
state (increment 1, one distinct destroyed robot). -/
theorem updateBombs_scores_sum_witness :
    sumValues (updateBombs pC4 stC4).1.scores
      = sumValues stC4.scores
        + (destroyedInEvents (updateBombs pC4 stC4).2 []).length :=
  updateBombs_scores_sum pC4 stC4 (by decide)

/-! Claim C1. -/

theorem applyTurns_message_history (ts : List (Nat × List Event)) :
    ∀ s : Server, (applyTurns ts s).message_history
      = s.message_history ++ ts.map (fun t => ServerMessage.turn t.1 t.2) := by
  induction ts with
  | nil =>
    intro s
    simp [applyTurns]
  | cons t rest ih =>
    intro s
    have hu : applyTurns (t :: rest) s = applyTurns rest (closeTurn t.1 t.2 s) := rfl
    rw [hu, ih]
    simp [closeTurn, broadcast]

theorem startGame_message_history (p : ServerParams) (s : Server) :
    (startGame p s).message_history
      = [helloMsg p, ServerMessage.gameStarted s.players] := by
  simp [startGame, initializeMessageHistory, broadcast]

/-- C1 amended: a client connecting after n Turn frames of a game is seeded
with exactly the reseeded Hello, then GameStarted (with the roster as of game
start), then the n Turn frames, in that order; the lobby's AcceptedPlayer
frames are NOT replayed mid-game, because startGame reinitializes the
history before broadcasting GameStarted. -/
theorem createMessageQueue_replay (p : ServerParams) (s : Server)
    (ts : List (Nat × List Event)) (cid : Nat) :
    (createMessageQueue cid (applyTurns ts (startGame p s))).1.items
      = helloMsg p :: ServerMessage.gameStarted s.players
          :: ts.map (fun t => ServerMessage.turn t.1 t.2) := by
  show (applyTurns ts (startGame p s)).message_history = _
  rw [applyTurns_message_history, startGame_message_history]
  rfl

/-- C1 counterexample: the queue of a client joining mid-game is seeded
Hello, GameStarted, Turn — NOT the claimed Hello, AcceptedPlayer,
GameStarted, Turn: the AcceptedPlayer frame of the session is absent. -/
theorem createMessageQueue_replay_cex :
    (createMessageQueue 1 serverC1).1.items
      = [helloMsg pC1,
         ServerMessage.gameStarted [(0, ⟨"alice", "addr1"⟩)],
         ServerMessage.turn 1 []] ∧
    (createMessageQueue 1 serverC1).1.items
      ≠ [helloMsg pC1,
         ServerMessage.acceptedPlayer 0 ⟨"alice", "addr1"⟩,
         ServerMessage.gameStarted [(0, ⟨"alice", "addr1"⟩)],
         ServerMessage.turn 1 []] := by
  decide

/-! Claim C2 (code bug). -/

/-- C2: GameManager::resetScores on a two-player roster leaves a scores
table holding only the LAST admitted player's zero entry; player 0 has no
entry at all, so the clear inside the loop does not produce the complete
all-zero table. -/
theorem resetScores_keeps_only_last :
    (resetScores [(0, ⟨"a", "x"⟩), (1, ⟨"b", "y"⟩)] {}).scores = [(1, 0)] ∧
    mapContains 0 (resetScores [(0, ⟨"a", "x"⟩), (1, ⟨"b", "y"⟩)] {}).scores
      = false := by
  decide

/-! Claim C3 (code bug). -/

/-- C3: the never-admitted client 5's PlaceBomb intent IS attributed to
PlayerId 0 in the collected snapshot (overriding the admitted player's own
Move), and player_ids default-gains a 5 to 0 mapping. -/
theorem collectLastMessages_spectator_bug :
    (collectLastMessagesFromClients serverC3).1
        = [(0, ClientMessage.placeBomb)] ∧
    mapFind? 5 (collectLastMessagesFromClients serverC3).2.player_ids
        = some 0 := by
  decide

/-! Claim C5 (code bug). -/

/-- C5: erasing the never-admitted client 3 erases PLAYER 0's roster entry
(player_ids[3] default-creates PlayerId 0), while client 7's own player-id
mapping survives. -/
theorem eraseClient_removes_player_zero :
    (eraseClient 3 serverC5).players = [] ∧
    mapFind? 7 (eraseClient 3 serverC5).player_ids = some 0 := by
  decide

/-! Claim C9. -/

/-- C9: with empty intent streams, the sequence of Turn payloads produced by
the game loop is a deterministic function of the parameters (in particular
of the seed): any two empty-intent runs coincide frame by frame. -/
theorem runGame_deterministic (p : ServerParams) (players : List (Nat × Player))
    (i1 i2 : Nat → List (Nat × ClientMessage))
    (h1 : ∀ t, i1 t = []) (h2 : ∀ t, i2 t = []) :
    runGame p players i1 = runGame p players i2 := by
  have e1 : i1 = fun _ => [] := funext h1
  have e2 : i2 = fun _ => [] := funext h2
  rw [e1, e2]

/-- C9 witness: two empty-intent runs at seed 42 produce the same frames. -/
theorem runGame_deterministic_witness :
    runGame pC9 [(0, ⟨"p", "a"⟩)] (fun _ => [])
      = runGame pC9 [(0, ⟨"p", "a"⟩)] (fun _ => []) :=
  runGame_deterministic pC9 [(0, ⟨"p", "a"⟩)] (fun _ => []) (fun _ => [])
    (fun _ => rfl) (fun _ => rfl)

/-! Claim C10. -/

theorem blocksFold_explosions (l : List Pos) :
    ∀ c : ClientState,
      (l.foldl (fun c q =>
          { c with blocks_destroyed_in_turn := insPos q c.blocks_destroyed_in_turn })
        c).explosions = c.explosions := by
  induction l with
  | nil =>
    intro c
    rfl
  | cons a rest ih =>
    intro c
    rw [List.foldl_cons]
    exact ih _

theorem robotsFold_explosions (l : List Nat) :
    ∀ c : ClientState,
      (l.foldl (fun c q =>
          { c with
              robots_destroyed_in_turn := insNat q c.robots_destroyed_in_turn,
              player_positions := mapErase q c.player_positions })
        c).explosions = c.explosions := by
  induction l with
  | nil =>
    intro c
    rfl
  | cons a rest ih =>
    intro c
    rw [List.foldl_cons]
    exact ih _

theorem robotsFold_blocksDest (l : List Nat) :
    ∀ c : ClientState,
      (l.foldl (fun c q =>
          { c with
              robots_destroyed_in_turn := insNat q c.robots_destroyed_in_turn,
              player_positions := mapErase q c.player_positions })
        c).blocks_destroyed_in_turn = c.blocks_destroyed_in_turn := by
  induction l with
  | nil =>
    intro c
    rfl
  | cons a rest ih =>
    intro c
    rw [List.foldl_cons]
    exact ih _

theorem blocksFold_mem_mono (l : List Pos) :
    ∀ (c : ClientState) (q : Pos),
      q ∈ c.blocks_destroyed_in_turn →
      q ∈ (l.foldl (fun c q =>
          { c with blocks_destroyed_in_turn := insPos q c.blocks_destroyed_in_turn })
        c).blocks_destroyed_in_turn := by
  induction l with
  | nil =>
    intro c q h
    exact h
  | cons a rest ih =>
    intro c q h
    rw [List.foldl_cons]
    exact ih _ q ((mem_insPos q a _).mpr (Or.inr h))

theorem blocksFold_mem (l : List Pos) :
    ∀ (c : ClientState) (q : Pos), q ∈ l →
      q ∈ (l.foldl (fun c q =>
          { c with blocks_destroyed_in_turn := insPos q c.blocks_destroyed_in_turn })
        c).blocks_destroyed_in_turn := by
  induction l with
  | nil =>
    intro c q h
    cases h
  | cons a rest ih =>
    intro c q hq
    rw [List.foldl_cons]
    rcases List.mem_cons.mp hq with hq | hq
    · subst hq
      exact blocksFold_mem_mono rest _ q ((mem_insPos q q _).mpr (Or.inl rfl))
    · exact ih _ q hq

theorem robotsFold_mono (l : List Nat) :
    ∀ (c : ClientState) (q : Nat),
      (q ∈ c.robots_destroyed_in_turn →
        q ∈ (l.foldl (fun c q =>
            { c with
                robots_destroyed_in_turn := insNat q c.robots_destroyed_in_turn,
                player_positions := mapErase q c.player_positions })
          c).robots_destroyed_in_turn) ∧
      (mapContains q c.player_positions = false →
        mapContains q (l.foldl (fun c q =>
            { c with
                robots_destroyed_in_turn := insNat q c.robots_destroyed_in_turn,
                player_positions := mapErase q c.player_positions })
          c).player_positions = false) := by
  induction l with
  | nil =>
    intro c q
    exact ⟨id, id⟩
  | cons a rest ih =>
    intro c q
    rw [List.foldl_cons]
    constructor
    · intro hq
      exact (ih _ q).1 ((mem_insNat q a _).mpr (Or.inr hq))
    · intro hq
      exact (ih _ q).2 (mapContains_mapErase_of_false q a _ hq)

theorem robotsFold_mem (l : List Nat) :
    ∀ (c : ClientState) (q : Nat), q ∈ l →
      q ∈ (l.foldl (fun c q =>
          { c with
              robots_destroyed_in_turn := insNat q c.robots_destroyed_in_turn,
              player_positions := mapErase q c.player_positions })
        c).robots_destroyed_in_turn ∧
      mapContains q (l.foldl (fun c q =>
          { c with
              robots_destroyed_in_turn := insNat q c.robots_destroyed_in_turn,
              player_positions := mapErase q c.player_positions })
        c).player_positions = false := by
  induction l with
  | nil =>
    intro c q h
    cases h
  | cons a rest ih =>
    intro c q hq
    rw [List.foldl_cons]
    rcases List.mem_cons.mp hq with hq | hq
    · subst hq
      constructor
      · exact (robotsFold_mono rest _ q).1 ((mem_insNat q q _).mpr (Or.inl rfl))
      · exact (robotsFold_mono rest _ q).2 (mapContains_mapErase_self q _)
    · exact ih _ q hq

/-- C10: applying a BombExploded whose id is absent from the client's bombs
map does not fail: c.bombs[id] default-creates a bomb at (0, 0), so the
explosion cross is computed centered at (0, 0) and those cells are added to
explosions; every listed robot is still recorded destroyed and erased from
the positions map, every listed block is recorded destroyed, and afterwards
the bombs map does not contain the id. -/
theorem bombExplodedApply_unknown_id (c : ClientState) (id : Nat)
    (robots_destroyed : List Nat) (blocks_destroyed : List Pos)
    (h : mapContains id c.bombs = false) :
    (bombExplodedApply id robots_destroyed blocks_destroyed c).explosions
        = clientCalcExplosion c.size_x c.size_y c.explosion_radius c.blocks
            ⟨0, 0⟩ c.explosions ∧
    (robots_destroyed.all fun q =>
        decide (q ∈ (bombExplodedApply id robots_destroyed blocks_destroyed
            c).robots_destroyed_in_turn)
          && !(mapContains q (bombExplodedApply id robots_destroyed
            blocks_destroyed c).player_positions)) = true ∧
    (blocks_destroyed.all fun q =>
        decide (q ∈ (bombExplodedApply id robots_destroyed blocks_destroyed
            c).blocks_destroyed_in_turn)) = true ∧
    mapContains id
        (bombExplodedApply id robots_destroyed blocks_destroyed c).bombs
      = false := by
  have hf : mapFind? id c.bombs = none := by
    cases hfind : mapFind? id c.bombs with
    | none => rfl
    | some v =>
      rw [mapContains, hfind] at h
      cases h
  simp only [bombExplodedApply, bombExplodedCalcExplosion,
    mapFind?_mapIndex_none id ⟨⟨0, 0⟩, 0⟩ c.bombs hf]
  refine ⟨?_, ?_, ?_, ?_⟩
  · rw [robotsFold_explosions, blocksFold_explosions]
  · rw [List.all_eq_true]
    intro q hq
    simp only [Bool.and_eq_true, decide_eq_true_eq, Bool.not_eq_true']
    exact ⟨(robotsFold_mem _ _ q hq).1, (robotsFold_mem _ _ q hq).2⟩
  · rw [List.all_eq_true]
    intro q hq
    simp only [decide_eq_true_eq]
    rw [robotsFold_blocksDest]
    exact blocksFold_mem _ _ q hq
  · exact mapContains_mapErase_self id _

/-- C10 witness: BombExploded with unknown id 9 applied to cC10. -/
theorem bombExplodedApply_unknown_id_witness :
    (bombExplodedApply 9 [3] [⟨1, 1⟩] cC10).explosions
        = clientCalcExplosion cC10.size_x cC10.size_y cC10.explosion_radius
            cC10.blocks ⟨0, 0⟩ cC10.explosions ∧
    ([3].all fun q =>
        decide (q ∈ (bombExplodedApply 9 [3] [⟨1, 1⟩]
            cC10).robots_destroyed_in_turn)
          && !(mapContains q (bombExplodedApply 9 [3] [⟨1, 1⟩]
            cC10).player_positions)) = true ∧
    ([⟨1, 1⟩].all fun q : Pos =>
        decide (q ∈ (bombExplodedApply 9 [3] [⟨1, 1⟩]
            cC10).blocks_destroyed_in_turn)) = true ∧
    mapContains 9 (bombExplodedApply 9 [3] [⟨1, 1⟩] cC10).bombs = false :=
  bombExplodedApply_unknown_id cC10 9 [3] [⟨1, 1⟩] (by decide)
